import Mathlib

/-!
Verification of the task-group / task-name resolution core of
`gulp-kitchen-sink`.

The definitions below are a shallow embedding of the JavaScript sources:

* `BuildConfig.createTaskName` embeds `types/build-config.js`
  (`BuildConfig.prototype.createTaskName`).
* `ActionDependency`, `GulpTaskGroup` and their methods embed
  `types/task-group.js` in its evolved form (the copy whose
  `loadTask` / `loadAllTasks` return the generated task names and whose
  `createTasksModule` tests the `lazyLoad` flag it declares).
* `GroupLoader` embeds `types/group-loader.js`.

JavaScript values that may be `undefined` or `false` are modelled with
`Option`; truthiness of a string is non-emptiness.  Gulp, the host build
tool, is modelled as the ordered list of tasks registered through
`gulp.task(...)`; task bodies are opaque callbacks that the core never
inspects, so they are represented by an identifier (`Nat`).  Fallible
calls (a missing action name, a missing module) return `Option`.
-/

namespace GulpKitchenSink

/-- Truthiness of a JavaScript string: every string except `""` is truthy. -/
def strTruthy (s : String) : Bool := s ≠ ""

/-- Truthiness of a JavaScript value that is either a string or
`undefined` / `false` (modelled as `none`). -/
def optTruthy : Option String → Bool
  | none => false
  | some s => strTruthy s

/-- JavaScript `a || b` on string-or-falsy values: the first operand if it
is truthy, otherwise the second. -/
def jsOr (a b : Option String) : Option String :=
  if optTruthy a then a else b

/-- The separator between prefix, group and action name components
(`TASK_NAME_SEPARATOR` in `types/build-config.js`). -/
def TASK_NAME_SEPARATOR : String := ":"

/-- The `tasks` settings of a build config (`this.tasks` in
`types/build-config.js`): `defaultPrefixName` is `false` (here `none`) or
a namespace string, `groupBeforeAction` picks the component order. -/
structure TasksSettings where
  defaultPrefixName : Option String
  groupBeforeAction : Bool
deriving Repr, DecidableEq

/-- A build config object.  Only its `tasks` settings take part in task
naming, which is all the resolution core reads; the path and LESS
settings of the source class are glue outside this core. -/
structure BuildConfig where
  tasks : TasksSettings
deriving Repr, DecidableEq

/-- `BuildConfig.prototype.createTaskName(groupName, actionName, prefixName)`:
fall back from the explicit prefix to `tasks.defaultPrefixName`, order the
group and action names according to `tasks.groupBeforeAction`, and prepend
the prefix only when it is truthy. -/
def BuildConfig.createTaskName (cfg : BuildConfig) (groupName actionName : String)
    (prefixName : Option String) : String :=
  let pfx := jsOr prefixName cfg.tasks.defaultPrefixName
  let taskName :=
    if cfg.tasks.groupBeforeAction then
      groupName ++ TASK_NAME_SEPARATOR ++ actionName
    else
      actionName ++ TASK_NAME_SEPARATOR ++ groupName
  if optTruthy pfx then
    pfx.getD "" ++ TASK_NAME_SEPARATOR ++ taskName
  else
    taskName

/-- The shared build config singleton (`shared/config.js`):
`new BuildConfig()`, whose task settings default to
`defaultPrefixName: false, groupBeforeAction: true`. -/
def sharedConfig : BuildConfig := ⟨⟨none, true⟩⟩

/-- An `ActionDependency`: a reference to an action that may live in
another group.  `groupName` may be `undefined` (here `none`) or empty to
mean "the group the dependency is resolved against". -/
structure ActionDependency where
  groupName : Option String
  actionName : String
deriving Repr, DecidableEq

/-- One entry of an action's dependency list: either a plain action name
from the same group, or an `ActionDependency` object
(`stringOrActionDep` in the source). -/
inductive DepEntry where
  | name (s : String)
  | dep (d : ActionDependency)
deriving Repr, DecidableEq

/-- The data captured by a task-loader closure
(`_createTaskLoaderFn(actionName, actionDeps, taskFn)`): the dependency
list and the opaque task body. -/
structure TaskLoader where
  actionDeps : List DepEntry
  taskFn : Nat
deriving Repr, DecidableEq

/-- A task registered with Gulp: `gulp.task(taskName, taskDeps, taskFn)`;
the two-argument form registers with no dependencies. -/
structure GulpTask where
  taskName : String
  taskDeps : List String
  taskFn : Nat
deriving Repr, DecidableEq

/-- The host build tool: the ordered list of registered tasks. -/
abbrev Gulp := List GulpTask

/-- A task group (`GulpTaskGroup`): a name, a shared build config
reference, and the registry of task-loader records keyed by action name.
JavaScript object keys enumerate in insertion order, so the registry is
an ordered association list. -/
structure GulpTaskGroup where
  groupName : String
  config : BuildConfig
  taskLoaders : List (String × TaskLoader)
deriving Repr, DecidableEq

/-- Reading a property of a JavaScript object used as a map:
`obj[k]` is the stored value, or `undefined` (here `none`). -/
def assocGet {α : Type} : List (String × α) → String → Option α
  | [], _ => none
  | (k', v') :: rest, k => if k' = k then some v' else assocGet rest k

/-- Writing a property of a JavaScript object used as a map:
`obj[k] = v` overwrites in place when the key exists (its enumeration
position is kept) and appends a new key otherwise. -/
def assocSet {α : Type} : List (String × α) → String → α → List (String × α)
  | [], k, v => [(k, v)]
  | (k', v') :: rest, k, v =>
      if k' = k then (k, v) :: rest else (k', v') :: assocSet rest k v

/-- `listActionNames()`: `Object.keys(this._taskLoaders)`. -/
def GulpTaskGroup.listActionNames (tg : GulpTaskGroup) : List String :=
  tg.taskLoaders.map Prod.fst

/-- `getActionDep(actionName)`: an `ActionDependency` rooted at this
group's own name. -/
def GulpTaskGroup.getActionDep (tg : GulpTaskGroup) (actionName : String) :
    ActionDependency :=
  ⟨some tg.groupName, actionName⟩

/-- `GulpTaskGroup.prototype.createTaskName(actionName)`: delegate to the
config with this group's name and no explicit prefix. -/
def GulpTaskGroup.createTaskName (tg : GulpTaskGroup) (actionName : String) : String :=
  tg.config.createTaskName tg.groupName actionName none

/-- `ActionDependency.prototype.isExternalTo(gulpTaskGroup)`:
`this.groupName && this.groupName !== gulpTaskGroup.groupName`. -/
def ActionDependency.isExternalTo (d : ActionDependency) (tg : GulpTaskGroup) : Bool :=
  optTruthy d.groupName && d.groupName != some tg.groupName

/-- `ActionDependency.prototype.createTaskName(gulpTaskGroup)`: an
external dependency is named through the context group's config using the
dependency's own group name; otherwise through the context group itself. -/
def ActionDependency.createTaskName (d : ActionDependency) (tg : GulpTaskGroup) : String :=
  if d.isExternalTo tg then
    tg.config.createTaskName (d.groupName.getD "") d.actionName none
  else
    tg.createTaskName d.actionName

/-- `resolveDepNames(deps)`: map every entry to a task name, resolving
`ActionDependency` entries against this group and treating everything
else as an action name of this group. -/
def GulpTaskGroup.resolveDepNames (tg : GulpTaskGroup) (deps : List DepEntry) :
    List String :=
  deps.map fun dep =>
    match dep with
    | .dep d => d.createTaskName tg
    | .name s => tg.createTaskName s

/-- `addAction(actionName, deps, fn)`: store or overwrite the task-loader
record under the action name.  The two-argument JavaScript form passes an
empty dependency list. -/
def GulpTaskGroup.addAction (tg : GulpTaskGroup) (actionName : String)
    (actionDeps : List DepEntry) (taskFn : Nat) : GulpTaskGroup :=
  { tg with taskLoaders := assocSet tg.taskLoaders actionName ⟨actionDeps, taskFn⟩ }

/-- Running the closure produced by `_createTaskLoaderFn` on a Gulp
instance: compute the task name, resolve the dependency names when the
list is non-empty, and register the task; the generated name is
returned. -/
def GulpTaskGroup.runTaskLoader (tg : GulpTaskGroup) (actionName : String)
    (loader : TaskLoader) (gulp : Gulp) : String × Gulp :=
  let taskName := tg.createTaskName actionName
  if loader.actionDeps.length > 0 then
    let taskDeps := tg.resolveDepNames loader.actionDeps
    (taskName, gulp ++ [⟨taskName, taskDeps, loader.taskFn⟩])
  else
    (taskName, gulp ++ [⟨taskName, [], loader.taskFn⟩])

/-- `loadTask(actionName, gulp)`:
`return this._taskLoaders[actionName](gulp);` — when the action name is
absent the looked-up value is `undefined` and the call throws, modelled
as `none`. -/
def GulpTaskGroup.loadTask (tg : GulpTaskGroup) (actionName : String) (gulp : Gulp) :
    Option (String × Gulp) :=
  (assocGet tg.taskLoaders actionName).map fun loader =>
    tg.runTaskLoader actionName loader gulp

/-- The loop body of `loadAllTasks`: walk the given action names, calling
`loadTask` on each and collecting the returned task names. -/
def loadTasksFrom (tg : GulpTaskGroup) : List String → List String → Gulp →
    Option (List String × Gulp)
  | [], taskNames, gulp => some (taskNames, gulp)
  | n :: rest, taskNames, gulp =>
      match tg.loadTask n gulp with
      | none => none
      | some (tn, gulp') => loadTasksFrom tg rest (taskNames ++ [tn]) gulp'

/-- `loadAllTasks(gulp)`: call `loadTask` for every registered action
name in enumeration order, collecting the generated task names. -/
def GulpTaskGroup.loadAllTasks (tg : GulpTaskGroup) (gulp : Gulp) :
    Option (List String × Gulp) :=
  loadTasksFrom tg tg.listActionNames [] gulp

/-- A JavaScript value observed only through truthiness, as the factory's
`lazyLoad` parameter is: `undefined`, a boolean, or a string. -/
inductive JsVal where
  | undef
  | bool (b : Bool)
  | str (s : String)
deriving Repr, DecidableEq

/-- Truthiness of a `JsVal`. -/
def JsVal.truthy : JsVal → Bool
  | .undef => false
  | .bool b => b
  | .str s => strTruthy s

/-- `GulpTaskGroup.createTasksModule(groupName, addActionsFn)` together
with a call of the function it returns, `(gulp, lazyLoad, config)`: fall
back to the shared config when none is given, construct a new group with
the factory's registered name, run the action-registration callback, and
unless `lazyLoad` is truthy immediately load every action into Gulp.
The callback only acts on the group (task bodies capture `gulp`
opaquely), so it is modelled as a function on the group. -/
def GulpTaskGroup.createTasksModule (groupName : String)
    (addActionsFn : Option (GulpTaskGroup → GulpTaskGroup)) (gulp : Gulp)
    (lazyLoad : JsVal) (config : Option BuildConfig) : Option (GulpTaskGroup × Gulp) :=
  let config :=
    match config with
    | none => sharedConfig
    | some c => c
  let tasks : GulpTaskGroup := ⟨groupName, config, []⟩
  let tasks :=
    match addActionsFn with
    | some f => f tasks
    | none => tasks
  if !lazyLoad.truthy then
    (tasks.loadAllTasks gulp).map fun p => (tasks, p.2)
  else
    some (tasks, gulp)

/-- A tasks module as the group loader sees one: the module's exported
function is `createTasksModule(groupName, addActionsFn)` applied to the
data the module fixed at definition time. -/
structure TasksModule where
  groupName : String
  addActionsFn : Option (GulpTaskGroup → GulpTaskGroup)

/-- A group loader (`types/group-loader.js`): the Gulp instance and
config handed to loaded groups, the modules directory, and the cache of
loaded groups keyed by group name. -/
structure GroupLoader where
  gulp : Gulp
  config : BuildConfig
  modulesDir : String
  taskGroups : List (String × GulpTaskGroup)

/-- `_getModuleName(groupName)`: the modules directory with
`groupName + "-tasks"` appended. -/
def GroupLoader.getModuleName (ldr : GroupLoader) (groupName : String) : String :=
  ldr.modulesDir ++ groupName ++ "-tasks"

/-- `getTaskGroup(groupName)`, parametrized by the ambient module system:
`modules name` is the tasks module that `require(name)` would load, if it
exists.  A cached group is returned as is; otherwise the module at
`_getModuleName(groupName)` is loaded, its exported function is invoked
as `(this.gulp, true, this.config)`, and the resulting group is cached
under the requested name.  A missing module propagates the load failure
(`none`). -/
def GroupLoader.getTaskGroup (modules : String → Option TasksModule)
    (ldr : GroupLoader) (groupName : String) : Option (GulpTaskGroup × GroupLoader) :=
  match assocGet ldr.taskGroups groupName with
  | some taskGroup => some (taskGroup, ldr)
  | none =>
      match modules (ldr.getModuleName groupName) with
      | none => none
      | some m =>
          match GulpTaskGroup.createTasksModule m.groupName m.addActionsFn
              ldr.gulp (.bool true) (some ldr.config) with
          | none => none
          | some (taskGroup, gulp') =>
              some (taskGroup,
                { ldr with
                    gulp := gulp'
                    taskGroups := assocSet ldr.taskGroups groupName taskGroup })

/-- The mutable state a materialization call runs in: the task group
object (`this`) and the host. -/
structure LoadState where
  tasks : GulpTaskGroup
  gulp : Gulp
deriving Repr, DecidableEq

/-- `loadTask` viewed over the full mutable state.  The source's loader
closure only reads `this` (through `createTaskName` and
`resolveDepNames`) and writes only through `gulp.task`, so the group
component passes through unchanged. -/
def loadTaskSt (actionName : String) (st : LoadState) : Option (String × LoadState) :=
  (st.tasks.loadTask actionName st.gulp).map fun p => (p.1, ⟨st.tasks, p.2⟩)

/-- `loadAllTasks` viewed over the full mutable state; as with
`loadTaskSt`, the group component passes through unchanged. -/
def loadAllTasksSt (st : LoadState) : Option (List String × LoadState) :=
  (st.tasks.loadAllTasks st.gulp).map fun p => (p.1, ⟨st.tasks, p.2⟩)

/-! ### Association-list and loader lemmas -/

/-- A key that occurs among an association list's keys is found by
`assocGet`. -/
theorem assocGet_isSome_of_mem {α : Type} :
    ∀ (l : List (String × α)) (k : String),
      k ∈ l.map Prod.fst → (assocGet l k).isSome
  | [], k, h => by simp at h
  | (k', v') :: rest, k, h => by
      by_cases hk : k' = k
      · simp [assocGet, hk]
      · have hmem : k ∈ rest.map Prod.fst := by
          rcases (by simpa using h : k = k' ∨ k ∈ rest.map Prod.fst) with h1 | h1
          · exact absurd h1.symm hk
          · exact h1
        simpa [assocGet, hk] using assocGet_isSome_of_mem rest k hmem

/-- `assocSet` stores the value under the key. -/
theorem assocGet_assocSet_self {α : Type} :
    ∀ (l : List (String × α)) (k : String) (v : α),
      assocGet (assocSet l k v) k = some v
  | [], k, v => by simp [assocGet, assocSet]
  | (k', v') :: rest, k, v => by
      by_cases hk : k' = k
      · simp [assocGet, assocSet, hk]
      · simpa [assocGet, assocSet, hk] using assocGet_assocSet_self rest k v

/-- `assocSet` leaves every other key's value alone. -/
theorem assocGet_assocSet_ne {α : Type} :
    ∀ (l : List (String × α)) (k g : String) (v : α), g ≠ k →
      assocGet (assocSet l k v) g = assocGet l g
  | [], k, g, v, hg => by simp [assocGet, assocSet, Ne.symm hg]
  | (k', v') :: rest, k, g, v, hg => by
      by_cases hk : k' = k
      · subst hk
        simp [assocGet, assocSet, Ne.symm hg]
      · by_cases hkg : k' = g
        · subst hkg
          simp [assocGet, assocSet, hk]
        · simpa [assocGet, assocSet, hk, hkg] using
            assocGet_assocSet_ne rest k g v hg

/-- Overwriting an existing key keeps the key list unchanged. -/
theorem assocSet_keys_of_mem {α : Type} :
    ∀ (l : List (String × α)) (k : String) (v : α),
      k ∈ l.map Prod.fst →
      (assocSet l k v).map Prod.fst = l.map Prod.fst
  | [], k, v, h => by simp at h
  | (k', v') :: rest, k, v, h => by
      by_cases hk : k' = k
      · simp [assocSet, hk]
      · have hmem : k ∈ rest.map Prod.fst := by
          rcases (by simpa using h : k = k' ∨ k ∈ rest.map Prod.fst) with h1 | h1
          · exact absurd h1.symm hk
          · exact h1
        simp [assocSet, hk, assocSet_keys_of_mem rest k v hmem]

/-- Setting a fresh key appends it to the key list. -/
theorem assocSet_keys_of_not_mem {α : Type} :
    ∀ (l : List (String × α)) (k : String) (v : α),
      k ∉ l.map Prod.fst →
      (assocSet l k v).map Prod.fst = l.map Prod.fst ++ [k]
  | [], k, v, _ => by simp [assocSet]
  | (k', v') :: rest, k, v, h => by
      have hk : k' ≠ k := by
        intro he; exact h (by simp [he])
      have hmem : k ∉ rest.map Prod.fst := by
        intro hin; exact h (by simp [hin])
      simp [assocSet, hk, assocSet_keys_of_not_mem rest k v hmem]

/-- The key written by `assocSet` is among the resulting keys. -/
theorem mem_keys_assocSet {α : Type} (l : List (String × α)) (k : String) (v : α) :
    k ∈ (assocSet l k v).map Prod.fst := by
  by_cases h : k ∈ l.map Prod.fst
  · rw [assocSet_keys_of_mem l k v h]; exact h
  · rw [assocSet_keys_of_not_mem l k v h]; simp

/-- `assocSet` preserves distinctness of keys. -/
theorem assocSet_keys_nodup {α : Type} (l : List (String × α)) (k : String) (v : α)
    (h : (l.map Prod.fst).Nodup) : ((assocSet l k v).map Prod.fst).Nodup := by
  by_cases hm : k ∈ l.map Prod.fst
  · rw [assocSet_keys_of_mem l k v hm]; exact h
  · rw [assocSet_keys_of_not_mem l k v hm]
    refine List.Nodup.append h (List.nodup_singleton k) ?_
    intro a ha hb
    simp at hb
    subst hb
    exact hm ha

/-- Running a task-loader closure registers exactly one task and returns
the task name generated for the action. -/
theorem loadTask_eq (tg : GulpTaskGroup) (actionName : String) (loader : TaskLoader)
    (gulp : Gulp) (h : assocGet tg.taskLoaders actionName = some loader) :
    tg.loadTask actionName gulp =
      some (tg.createTaskName actionName,
        gulp ++ [⟨tg.createTaskName actionName,
                  if loader.actionDeps.length > 0 then tg.resolveDepNames loader.actionDeps
                  else [],
                  loader.taskFn⟩]) := by
  unfold GulpTaskGroup.loadTask GulpTaskGroup.runTaskLoader
  rw [h]
  by_cases hd : loader.actionDeps.length > 0
  · simp [hd]
  · simp [hd]

/-- Walking a list of registered action names with `loadTask` succeeds
and appends, in order, the task name generated for each action. -/
theorem loadTasksFrom_spec (tg : GulpTaskGroup) (names : List String) :
    (∀ n ∈ names, n ∈ tg.taskLoaders.map Prod.fst) →
    ∀ (acc : List String) (gulp : Gulp),
      ∃ gulp', loadTasksFrom tg names acc gulp =
        some (acc ++ names.map tg.createTaskName, gulp') := by
  induction names with
  | nil => intro _ acc gulp; exact ⟨gulp, by simp [loadTasksFrom]⟩
  | cons n rest ih =>
      intro h acc gulp
      have hn : n ∈ tg.taskLoaders.map Prod.fst := h n (by simp)
      obtain ⟨loader, hl⟩ :=
        Option.isSome_iff_exists.mp (assocGet_isSome_of_mem tg.taskLoaders n hn)
      obtain ⟨gulp', hrest⟩ :=
        ih (fun m hm => h m (by simp [hm])) (acc ++ [tg.createTaskName n])
          (gulp ++ [⟨tg.createTaskName n,
            if loader.actionDeps.length > 0 then tg.resolveDepNames loader.actionDeps
            else [], loader.taskFn⟩])
      refine ⟨gulp', ?_⟩
      rw [loadTasksFrom, loadTask_eq tg n loader gulp hl]
      simpa using hrest

/-- `loadAllTasks` succeeds on every group and returns the task name
generated for each registered action, in enumeration order. -/
theorem loadAllTasks_spec (tg : GulpTaskGroup) (gulp : Gulp) :
    ∃ gulp', tg.loadAllTasks gulp =
      some (tg.listActionNames.map tg.createTaskName, gulp') := by
  obtain ⟨gulp', h⟩ := loadTasksFrom_spec tg tg.listActionNames
    (fun n hn => by simpa [GulpTaskGroup.listActionNames] using hn) [] gulp
  exact ⟨gulp', by simpa [GulpTaskGroup.loadAllTasks] using h⟩

/-! ### Claim theorems -/

/-- C1: `BuildConfig.createTaskName` follows the naming policy: the
effective prefix is the explicit prefix if truthy, else the config's
default; the core pair is group before action or the reverse according to
`tasks.groupBeforeAction`; the prefix and separator are prepended exactly
when the effective prefix is truthy. -/
theorem createTaskName_follows_naming_policy (cfg : BuildConfig)
    (groupName actionName : String) (explicitPfx : Option String) :
    cfg.createTaskName groupName actionName explicitPfx =
      (let eff := if optTruthy explicitPfx then explicitPfx
                  else cfg.tasks.defaultPrefixName
       let corePair := if cfg.tasks.groupBeforeAction then
                         groupName ++ ":" ++ actionName
                       else actionName ++ ":" ++ groupName
       if optTruthy eff then eff.getD "" ++ ":" ++ corePair else corePair) := rfl

/-- C2: resolving an `ActionDependency` against a context group uses the
naming policy on the dependency's own group and action names exactly when
the dependency's group name is truthy and differs from the context
group's name; otherwise it uses the context group's own task-name
generation. -/
theorem actionDependency_createTaskName_cases (d : ActionDependency)
    (tg : GulpTaskGroup) :
    d.createTaskName tg =
      if optTruthy d.groupName = true ∧ d.groupName ≠ some tg.groupName then
        tg.config.createTaskName (d.groupName.getD "") d.actionName none
      else
        tg.createTaskName d.actionName := by
  unfold ActionDependency.createTaskName ActionDependency.isExternalTo
  by_cases h1 : optTruthy d.groupName
  · by_cases h2 : d.groupName = some tg.groupName
    · simp [h1, h2]
    · simp [h1, h2]
  · simp [h1]

/-- C4: for a registered action, `loadTask` appends exactly one
registration to the host and returns the task name generated from the
group's name and the action name. -/
theorem loadTask_registers_and_returns_identifier (tg : GulpTaskGroup)
    (actionName : String) (loader : TaskLoader) (gulp : Gulp)
    (h : assocGet tg.taskLoaders actionName = some loader) :
    tg.loadTask actionName gulp =
      some (tg.createTaskName actionName,
        gulp ++ [⟨tg.createTaskName actionName,
                  if loader.actionDeps.length > 0 then tg.resolveDepNames loader.actionDeps
                  else [],
                  loader.taskFn⟩]) :=
  loadTask_eq tg actionName loader gulp h

/-- Witness for C4: a one-action group materializes that action and
returns `"g:a"`. -/
theorem loadTask_registers_and_returns_identifier_witness :
    (⟨"g", sharedConfig, [("a", ⟨[], 5⟩)]⟩ : GulpTaskGroup).loadTask "a" [] =
      some ((⟨"g", sharedConfig, [("a", ⟨[], 5⟩)]⟩ : GulpTaskGroup).createTaskName "a",
        [] ++ [⟨(⟨"g", sharedConfig, [("a", ⟨[], 5⟩)]⟩ : GulpTaskGroup).createTaskName "a",
               if ([] : List DepEntry).length > 0 then
                 (⟨"g", sharedConfig, [("a", ⟨[], 5⟩)]⟩ : GulpTaskGroup).resolveDepNames []
               else [],
               5⟩]) :=
  loadTask_registers_and_returns_identifier
    ⟨"g", sharedConfig, [("a", ⟨[], 5⟩)]⟩ "a" ⟨[], 5⟩ [] rfl

/-- C7: `loadTask` on an action name absent from the group's registry
fails: the lookup yields no loader and the call propagates the failure
rather than registering anything or returning an identifier. -/
theorem loadTask_unknown_action_fails (tg : GulpTaskGroup)
    (actionName : String) (gulp : Gulp)
    (h : assocGet tg.taskLoaders actionName = none) :
    tg.loadTask actionName gulp = none := by
  unfold GulpTaskGroup.loadTask
  rw [h]
  rfl

/-- Witness for C7: an empty group has no action `"a"`. -/
theorem loadTask_unknown_action_fails_witness :
    (⟨"g", sharedConfig, []⟩ : GulpTaskGroup).loadTask "a" [] = none :=
  loadTask_unknown_action_fails ⟨"g", sharedConfig, []⟩ "a" [] rfl

/-- C5: `loadAllTasks` visits every registered action name in
enumeration order and returns one generated identifier per action, each
equal to the group's task name for that action. -/
theorem loadAllTasks_returns_all_identifiers (tg : GulpTaskGroup) (gulp : Gulp) :
    ∃ gulp', tg.loadAllTasks gulp =
      some (tg.listActionNames.map tg.createTaskName, gulp') ∧
      (tg.listActionNames.map tg.createTaskName).length = tg.listActionNames.length := by
  obtain ⟨gulp', h⟩ := loadAllTasks_spec tg gulp
  exact ⟨gulp', h, by simp⟩

/-- C3: the function produced by `createTasksModule` materializes the new
group if and only if its `lazyLoad` argument is falsy: with a truthy flag
the host comes back untouched (the group is returned inert), with a falsy
flag the host state is exactly the result of `loadAllTasks` on the
returned group. -/
theorem createTasksModule_lazyLoad_toggle (groupName : String)
    (addActionsFn : Option (GulpTaskGroup → GulpTaskGroup)) (gulp : Gulp)
    (lazyLoad : JsVal) (config : Option BuildConfig)
    (tg : GulpTaskGroup) (gulp' : Gulp)
    (h : GulpTaskGroup.createTasksModule groupName addActionsFn gulp lazyLoad config =
      some (tg, gulp')) :
    (lazyLoad.truthy = true → gulp' = gulp) ∧
    (lazyLoad.truthy = false →
      ∃ taskNames, tg.loadAllTasks gulp = some (taskNames, gulp')) := by
  unfold GulpTaskGroup.createTasksModule at h
  by_cases ht : lazyLoad.truthy
  · constructor
    · intro _
      simp [ht] at h
      exact h.2.symm
    · intro hf
      rw [ht] at hf
      cases hf
  · constructor
    · intro htr
      rw [htr] at ht
      cases ht rfl
    · intro _
      simp [ht] at h
      obtain ⟨⟨taskNames, hnames⟩, rfl⟩ := h
      exact ⟨taskNames, hnames⟩

/-- Witness for C3: a lazy call with one registered action leaves the
host untouched. -/
theorem createTasksModule_lazyLoad_toggle_witness :
    ((JsVal.bool true).truthy = true → ([] : Gulp) = []) ∧
    ((JsVal.bool true).truthy = false →
      ∃ taskNames,
        (⟨"g", sharedConfig, [("a", ⟨[], 3⟩)]⟩ : GulpTaskGroup).loadAllTasks [] =
          some (taskNames, [])) :=
  createTasksModule_lazyLoad_toggle "g"
    (some fun tasks => tasks.addAction "a" [] 3) [] (.bool true) none
    ⟨"g", sharedConfig, [("a", ⟨[], 3⟩)]⟩ [] rfl

/-- C8: adding an action twice under one name keeps the registry's keys
distinct, leaves exactly one entry under the name, stores the second
record, and materializing the action registers the second record's
dependency list and body. -/
theorem addAction_last_write_wins (tg : GulpTaskGroup) (actionName : String)
    (deps1 deps2 : List DepEntry) (fn1 fn2 : Nat) (gulp : Gulp)
    (h : tg.listActionNames.Nodup) :
    let tg2 := (tg.addAction actionName deps1 fn1).addAction actionName deps2 fn2
    tg2.listActionNames.count actionName = 1 ∧
    assocGet tg2.taskLoaders actionName = some ⟨deps2, fn2⟩ ∧
    tg2.listActionNames.Nodup ∧
    tg2.loadTask actionName gulp =
      some (tg2.createTaskName actionName,
        gulp ++ [⟨tg2.createTaskName actionName,
                  if deps2.length > 0 then tg2.resolveDepNames deps2 else [],
                  fn2⟩]) := by
  intro tg2
  have hkeys : tg2.taskLoaders = assocSet (assocSet tg.taskLoaders actionName ⟨deps1, fn1⟩)
      actionName ⟨deps2, fn2⟩ := rfl
  have hget : assocGet tg2.taskLoaders actionName = some ⟨deps2, fn2⟩ := by
    rw [hkeys]; exact assocGet_assocSet_self _ actionName _
  have hnodup1 : ((assocSet tg.taskLoaders actionName ⟨deps1, fn1⟩).map Prod.fst).Nodup :=
    assocSet_keys_nodup tg.taskLoaders actionName ⟨deps1, fn1⟩ h
  have hnodup : tg2.listActionNames.Nodup := by
    show ((assocSet _ actionName _).map Prod.fst).Nodup
    exact assocSet_keys_nodup _ actionName _ hnodup1
  have hmem : actionName ∈ tg2.listActionNames := by
    show actionName ∈ (assocSet _ actionName _).map Prod.fst
    exact mem_keys_assocSet _ actionName _
  refine ⟨?_, hget, hnodup, ?_⟩
  · exact List.count_eq_one_of_mem hnodup hmem
  · have := loadTask_eq tg2 actionName ⟨deps2, fn2⟩ gulp hget
    simpa using this

/-- Witness for C8: two adds of `"a"` to an empty group leave one entry
holding the second record. -/
theorem addAction_last_write_wins_witness :
    let tg2 := ((⟨"g", sharedConfig, []⟩ : GulpTaskGroup).addAction "a" [] 1).addAction "a" [] 2
    tg2.listActionNames.count "a" = 1 ∧
    assocGet tg2.taskLoaders "a" = some ⟨[], 2⟩ ∧
    tg2.listActionNames.Nodup ∧
    tg2.loadTask "a" [] =
      some (tg2.createTaskName "a",
        [] ++ [⟨tg2.createTaskName "a",
                if ([] : List DepEntry).length > 0 then tg2.resolveDepNames [] else [],
                2⟩]) :=
  addAction_last_write_wins ⟨"g", sharedConfig, []⟩ "a" [] [] 1 2 []
    (by simp [GulpTaskGroup.listActionNames])

/-- C6: evaluating the factory's returned function at the call shape the
repository's own test suite uses, `(gulp, 'my-test-group', config, true)`,
shows the second argument is consumed as the `lazyLoad` flag: the group
keeps the factory's registered name instead of the override, and, the
string being truthy, nothing is loaded into the host. -/
theorem createTasksModule_ignores_group_name_override :
    GulpTaskGroup.createTasksModule "test-group-fallback"
        (some fun tasks => tasks.addAction "test-action" [] 0) []
        (.str "my-test-group") (some sharedConfig) =
      some (⟨"test-group-fallback", sharedConfig, [("test-action", ⟨[], 0⟩)]⟩, []) ∧
    "test-group-fallback" ≠ "my-test-group" :=
  ⟨rfl, by decide⟩

/-- With a truthy `lazyLoad` flag the factory's function returns the
freshly populated group and the untouched host. -/
theorem createTasksModule_truthy (groupName : String)
    (addActionsFn : Option (GulpTaskGroup → GulpTaskGroup)) (gulp : Gulp)
    (lazyLoad : JsVal) (config : Option BuildConfig)
    (ht : lazyLoad.truthy = true) :
    GulpTaskGroup.createTasksModule groupName addActionsFn gulp lazyLoad config =
      some
        (match addActionsFn with
         | some f => f ⟨groupName, (match config with | none => sharedConfig | some c => c), []⟩
         | none => ⟨groupName, (match config with | none => sharedConfig | some c => c), []⟩,
         gulp) := by
  unfold GulpTaskGroup.createTasksModule
  simp [ht]

/-- C9: `getTaskGroup` memoizes.  A group already produced is cached
under its name; repeating the call returns the identical group and
loader, whatever the module system now holds; previously cached entries
are never evicted; and a first call for an uncached name loads the module
at the resolved path, invokes its exported function with a `true`
`lazyLoad` flag on the loader's Gulp and config, and caches the result. -/
theorem getTaskGroup_memoizes (modules : String → Option TasksModule)
    (ldr : GroupLoader) (groupName : String) (tg : GulpTaskGroup) (ldr' : GroupLoader)
    (h : GroupLoader.getTaskGroup modules ldr groupName = some (tg, ldr')) :
    assocGet ldr'.taskGroups groupName = some tg ∧
    (∀ modules2, GroupLoader.getTaskGroup modules2 ldr' groupName = some (tg, ldr')) ∧
    (∀ g tgc, assocGet ldr.taskGroups g = some tgc → assocGet ldr'.taskGroups g = some tgc) ∧
    (assocGet ldr.taskGroups groupName = none →
      ∃ m, modules (ldr.getModuleName groupName) = some m ∧
        GulpTaskGroup.createTasksModule m.groupName m.addActionsFn ldr.gulp (.bool true)
          (some ldr.config) = some (tg, ldr'.gulp) ∧
        ldr'.taskGroups = assocSet ldr.taskGroups groupName tg) ∧
    (∀ tgc, assocGet ldr.taskGroups groupName = some tgc → tg = tgc ∧ ldr' = ldr) := by
  unfold GroupLoader.getTaskGroup at h
  cases hc : assocGet ldr.taskGroups groupName with
  | some tgc =>
      rw [hc] at h
      simp at h
      obtain ⟨rfl, rfl⟩ := h
      refine ⟨hc, ?_, fun g tgc2 hg => hg, ?_, ?_⟩
      · intro modules2
        simp [GroupLoader.getTaskGroup, hc]
      · intro hnone
        exact Option.noConfusion hnone
      · intro tgc2 hsome
        cases hsome
        exact ⟨rfl, rfl⟩
  | none =>
      rw [hc] at h
      simp at h
      cases hm : modules (ldr.getModuleName groupName) with
      | none =>
          rw [hm] at h
          simp at h
      | some m =>
          rw [hm] at h
          simp at h
          rw [createTasksModule_truthy m.groupName m.addActionsFn ldr.gulp
            (.bool true) (some ldr.config) rfl] at h
          simp at h
          obtain ⟨rfl, rfl⟩ := h
          refine ⟨assocGet_assocSet_self _ groupName _, ?_, ?_, ?_, ?_⟩
          · intro modules2
            simp [GroupLoader.getTaskGroup, assocGet_assocSet_self]
          · intro g tgc2 hg
            by_cases hgn : g = groupName
            · rw [hgn, hc] at hg
              cases hg
            · rw [assocGet_assocSet_ne _ groupName g _ hgn]
              exact hg
          · intro _
            exact ⟨m, rfl, createTasksModule_truthy m.groupName m.addActionsFn ldr.gulp
              (.bool true) (some ldr.config) rfl, rfl⟩
          · intro tgc2 hsome
            exact Option.noConfusion hsome

/-- Module system for the C9 witness: one module, `dir/less-tasks`. -/
def sampleModules : String → Option TasksModule := fun n =>
  if n = "dir/less-tasks" then some ⟨"less", none⟩ else none

/-- Loader for the C9 witness, before any group is requested. -/
def sampleLoader : GroupLoader := ⟨[], sharedConfig, "dir/", []⟩

/-- The group the C9 witness loads. -/
def sampleLoadedGroup : GulpTaskGroup := ⟨"less", sharedConfig, []⟩

/-- Loader state after the C9 witness's first request. -/
def sampleLoader2 : GroupLoader := ⟨[], sharedConfig, "dir/", [("less", sampleLoadedGroup)]⟩

/-- Witness for C9: loading group `"less"` once caches it. -/
theorem getTaskGroup_memoizes_witness :
    assocGet sampleLoader2.taskGroups "less" = some sampleLoadedGroup ∧
    (∀ modules2, GroupLoader.getTaskGroup modules2 sampleLoader2 "less" =
      some (sampleLoadedGroup, sampleLoader2)) ∧
    (∀ g tgc, assocGet sampleLoader.taskGroups g = some tgc →
      assocGet sampleLoader2.taskGroups g = some tgc) ∧
    (assocGet sampleLoader.taskGroups "less" = none →
      ∃ m, sampleModules (sampleLoader.getModuleName "less") = some m ∧
        GulpTaskGroup.createTasksModule m.groupName m.addActionsFn sampleLoader.gulp
          (.bool true) (some sampleLoader.config) = some (sampleLoadedGroup, sampleLoader2.gulp) ∧
        sampleLoader2.taskGroups = assocSet sampleLoader.taskGroups "less" sampleLoadedGroup) ∧
    (∀ tgc, assocGet sampleLoader.taskGroups "less" = some tgc →
      sampleLoadedGroup = tgc ∧ sampleLoader2 = sampleLoader) :=
  getTaskGroup_memoizes sampleModules sampleLoader "less" sampleLoadedGroup sampleLoader2 rfl

/-- C10: materialization acts only on the host.  Over the full mutable
state, a successful `loadTask` or `loadAllTasks` leaves the group's name,
config reference and action registry exactly as they were. -/
theorem materialization_preserves_group (st : LoadState)
    (actionName taskName : String) (st' : LoadState)
    (taskNames : List String) (st'' : LoadState)
    (h1 : loadTaskSt actionName st = some (taskName, st'))
    (h2 : loadAllTasksSt st = some (taskNames, st'')) :
    (st'.tasks.groupName = st.tasks.groupName ∧
     st'.tasks.config = st.tasks.config ∧
     st'.tasks.taskLoaders = st.tasks.taskLoaders) ∧
    (st''.tasks.groupName = st.tasks.groupName ∧
     st''.tasks.config = st.tasks.config ∧
     st''.tasks.taskLoaders = st.tasks.taskLoaders) := by
  have e1 : st'.tasks = st.tasks := by
    obtain ⟨p, _, heq⟩ := Option.map_eq_some'.mp h1
    have hb : (⟨st.tasks, p.2⟩ : LoadState) = st' := congrArg Prod.snd heq
    rw [← hb]
  have e2 : st''.tasks = st.tasks := by
    obtain ⟨p, _, heq⟩ := Option.map_eq_some'.mp h2
    have hb : (⟨st.tasks, p.2⟩ : LoadState) = st'' := congrArg Prod.snd heq
    rw [← hb]
  exact ⟨⟨by rw [e1], by rw [e1], by rw [e1]⟩, ⟨by rw [e2], by rw [e2], by rw [e2]⟩⟩

/-- Group for the C10 witness. -/
def sampleStGroup : GulpTaskGroup := ⟨"g", sharedConfig, [("a", ⟨[], 4⟩)]⟩

/-- Pre-materialization state for the C10 witness. -/
def sampleSt : LoadState := ⟨sampleStGroup, []⟩

/-- Post-materialization state for the C10 witness. -/
def sampleStAfter : LoadState := ⟨sampleStGroup, [⟨"g:a", [], 4⟩]⟩

/-- Witness for C10: materializing the one action of a concrete group
leaves the group component untouched. -/
theorem materialization_preserves_group_witness :
    (sampleStAfter.tasks.groupName = sampleSt.tasks.groupName ∧
     sampleStAfter.tasks.config = sampleSt.tasks.config ∧
     sampleStAfter.tasks.taskLoaders = sampleSt.tasks.taskLoaders) ∧
    (sampleStAfter.tasks.groupName = sampleSt.tasks.groupName ∧
     sampleStAfter.tasks.config = sampleSt.tasks.config ∧
     sampleStAfter.tasks.taskLoaders = sampleSt.tasks.taskLoaders) :=
  materialization_preserves_group sampleSt "a" "g:a" sampleStAfter ["g:a"] sampleStAfter
    rfl rfl

end GulpKitchenSink
